import Mathlib

/-!
Verification of the `crudManager` service of ng-admin
(src/app/scripts/services/crudManager.js) against its specification.

The service is a CRUD facade over a configuration object and a shared REST
client (Restangular).  We embed it shallowly:

* JavaScript objects used as records (entity instances, field mappings,
  entity mappings) become association lists over `String` keys;
* the shared Restangular singleton becomes an explicit `ClientState`
  (base URL, full-response flag, and a log of issued requests);
* the REST backend becomes a `Server` of response functions;
* the asynchronously loaded configuration becomes a cached
  `Except String Config` carried in the state (the `getConfig` service is
  not part of the sources; the specification says the configuration is
  loaded once and shared, so we model it as a cache that persists across
  calls);
* every operation takes and returns the state explicitly, and returns an
  `Except` mirroring promise resolution/rejection.
-/

/-- A dynamically typed JavaScript value, as far as the claims need one:
entity field values and ids are strings, numbers or booleans. -/
inductive Value where
  | vstr : String → Value
  | vnum : Int → Value
  | vbool : Bool → Value
deriving DecidableEq, Repr

/-- An entity instance fetched from or sent to the REST endpoint: a
loosely typed key/value record.  A key absent from the list models a
JavaScript property whose `typeof` is `undefined`. -/
def Record := List (String × Value)
deriving DecidableEq, Repr

/-- Field metadata from the configuration: the optional `edition` tag, the
optional `value` slot, and the remaining attributes (kept opaque). -/
structure FieldConfig where
  edition : Option String
  value : Option Value
  attrs : List (String × Value)
deriving DecidableEq, Repr

/-- Entity metadata from the configuration: a label and a mapping of field
name to `FieldConfig`. -/
structure EntityConfig where
  label : String
  fields : List (String × FieldConfig)
deriving DecidableEq, Repr

/-- The `global` part of the configuration: `baseApiUrl` and the optional
`per_page` page size. -/
structure GlobalConfig where
  baseApiUrl : String
  per_page : Option Nat
deriving DecidableEq, Repr

/-- The configuration object obtained from `getConfig`:
`global` settings and the entity mapping. -/
structure Config where
  global : GlobalConfig
  entities : List (String × EntityConfig)
deriving DecidableEq, Repr

/-- A request issued through the Restangular client. -/
inductive RestRequest where
  | getOneReq : String → Value → RestRequest
  | getListReq : String → Nat → Nat → RestRequest
  | postReq : String → Record → RestRequest
  | putReq : String → Record → RestRequest
  | removeReq : String → Value → RestRequest
deriving DecidableEq, Repr

/-- The shared Restangular singleton state: base URL, full-response flag,
and the log of requests issued so far. -/
structure ClientState where
  baseUrl : Option String
  fullResponse : Bool
  requests : List RestRequest
deriving DecidableEq, Repr

/-- A full response to a list request: the body and the response headers
(a function from header name to optional value, as `response.headers`). -/
structure ListResponse where
  data : List Record
  headers : String → Option String

/-- The REST backend: what each kind of request resolves or rejects
with. -/
structure Server where
  getOneResp : String → Value → Except String Record
  getListResp : String → Nat → Nat → Except String ListResponse
  postResp : String → Record → Except String Value
  putResp : String → Record → Except String Value
  removeResp : String → Value → Except String Value

/-- The state threaded through every operation: the cached configuration
(the specification says the configuration is loaded once and shared) and
the Restangular client state. -/
structure St where
  configCache : Except String Config
  client : ClientState

/-- Result of `getOne`: the field mapping with hydrated values, and the
entity label, name and id. -/
structure GetOneResult where
  fields : List (String × FieldConfig)
  entityLabel : String
  entityName : String
  entityId : Value
deriving DecidableEq, Repr

/-- Result of `getEditionFields`: the filtered field mapping, and the
entity label and name. -/
structure EditionFieldsResult where
  fields : List (String × FieldConfig)
  entityLabel : String
  entityName : String
deriving DecidableEq, Repr

/-- Result of `getAll`: the entity name and config, the raw items, the
current page, the page size, and the total item count taken from the
`X-Count` response header. -/
structure GetAllResult where
  entityName : String
  entityConfig : EntityConfig
  rawItems : List Record
  currentPage : Nat
  perPage : Nat
  totalItems : Option String
deriving Repr

/-- The body of the `angular.forEach` loop of `getOne` (lines 42-50): a
field without an `edition` tag is left alone; an edition-tagged field gets
`value` assigned when the fetched entity defines the property. -/
def hydrateField (entity : Record) (fieldName : String) (field : FieldConfig) :
    FieldConfig :=
  match field.edition with
  | none => field
  | some _ =>
    match List.lookup fieldName entity with
    | none => field
    | some v => { field with value := some v }

/-- The whole `forEach` loop of `getOne`: every field of the mapping is
updated in place by `hydrateField`. -/
def hydrateFields (fields : List (String × FieldConfig)) (entity : Record) :
    List (String × FieldConfig) :=
  fields.map fun p => (p.1, hydrateField entity p.1 p.2)

/-- JavaScript object update `config.entities[entityName] = ec` seen from
the association list: the binding of `name` is replaced. -/
def setEntity (entities : List (String × EntityConfig)) (name : String)
    (ec : EntityConfig) : List (String × EntityConfig) :=
  entities.map fun p => if p.1 = name then (p.1, ec) else p

/-- The rejection message used by every entity lookup (for example
line 24). -/
def entityNotFoundMsg (entityName : String) : String :=
  "Entity " ++ entityName ++ " not found."

/-- `getOne(entityName, entityId)` (crudManager.js lines 17-61): resolve
the configuration, reject if the entity is unknown, set the base URL and
the full-response flag, fetch the record, hydrate the field mapping in
place (the `FieldConfig` objects of the configuration itself are mutated,
so the cache is updated), and resolve with fields, label, name and id. -/
def getOne (server : Server) (st : St) (entityName : String)
    (entityId : Value) : Except String GetOneResult × St :=
  match st.configCache with
  | .error e => (.error e, st)
  | .ok config =>
    match List.lookup entityName config.entities with
    | none => (.error (entityNotFoundMsg entityName), st)
    | some entityConfig =>
      let client1 : ClientState :=
        { baseUrl := some config.global.baseApiUrl
          fullResponse := true
          requests := st.client.requests
            ++ [RestRequest.getOneReq entityName entityId] }
      match server.getOneResp entityName entityId with
      | .error e => (.error e, { st with client := client1 })
      | .ok entity =>
        let newFields := hydrateFields entityConfig.fields entity
        let newConfig : Config :=
          { config with
            entities := setEntity config.entities entityName
              { entityConfig with fields := newFields } }
        (.ok { fields := newFields
               entityLabel := entityConfig.label
               entityName := entityName
               entityId := entityId },
         { configCache := .ok newConfig, client := client1 })

/-- The optional `filterType` argument of `getEditionFields`: a single
tag string or an array of tags. -/
inductive FilterType where
  | single : String → FilterType
  | many : List String → FilterType
deriving DecidableEq, Repr

/-- Lines 74-82 of `getEditionFields`: a string becomes a one-element
filter list, an array replaces the filter list only when its `length` is
truthy (so the empty array leaves the filters empty). -/
def resolveFilters : Option FilterType → List String
  | none => []
  | some (FilterType.single s) => [s]
  | some (FilterType.many l) => if l.length ≠ 0 then l else []

/-- `filterEditionFields(fields, filters)` (lines 113-135): drop fields
without an `edition` tag; keep every edition-tagged field when the filter
list is empty, and otherwise exactly those whose tag is in the list. -/
def filterEditionFields (fields : List (String × FieldConfig))
    (filters : List String) : List (String × FieldConfig) :=
  fields.filter fun p =>
    match p.2.edition with
    | none => false
    | some e => filters.length = 0 || filters.contains e

/-- `getEditionFields(entityName, filterType)` (lines 72-102): resolve the
configuration, reject if the entity is unknown, and resolve with the
filtered field mapping, the label and the name.  No request is issued and
the client state is untouched. -/
def getEditionFields (st : St) (entityName : String)
    (filterType : Option FilterType) : Except String EditionFieldsResult × St :=
  let filters := resolveFilters filterType
  match st.configCache with
  | .error e => (.error e, st)
  | .ok config =>
    match List.lookup entityName config.entities with
    | none => (.error (entityNotFoundMsg entityName), st)
    | some entityConfig =>
      (.ok { fields := filterEditionFields entityConfig.fields filters
             entityLabel := entityConfig.label
             entityName := entityName }, st)

/-- `createOne(entityName, entity)` (lines 146-165): resolve the
configuration, reject if the entity is unknown, set the base URL, post the
payload, and resolve with the server response. -/
def createOne (server : Server) (st : St) (entityName : String)
    (entity : Record) : Except String Value × St :=
  match st.configCache with
  | .error e => (.error e, st)
  | .ok config =>
    match List.lookup entityName config.entities with
    | none => (.error (entityNotFoundMsg entityName), st)
    | some _ =>
      let client1 : ClientState :=
        { st.client with
          baseUrl := some config.global.baseApiUrl
          requests := st.client.requests
            ++ [RestRequest.postReq entityName entity] }
      (server.postResp entityName entity, { st with client := client1 })

/-- `updateOne(entityName, entity)` (lines 176-195): same validation as
`createOne`, then a put request. -/
def updateOne (server : Server) (st : St) (entityName : String)
    (entity : Record) : Except String Value × St :=
  match st.configCache with
  | .error e => (.error e, st)
  | .ok config =>
    match List.lookup entityName config.entities with
    | none => (.error (entityNotFoundMsg entityName), st)
    | some _ =>
      let client1 : ClientState :=
        { st.client with
          baseUrl := some config.global.baseApiUrl
          requests := st.client.requests
            ++ [RestRequest.putReq entityName entity] }
      (server.putResp entityName entity, { st with client := client1 })

/-- `deleteOne(entityName, entityId)` (lines 207-221): resolve the
configuration, set the base URL, and issue the remove request.  There is
no entity lookup: the deletion is issued whether or not `entityName` is in
the configuration, but a configuration failure still rejects before any
request. -/
def deleteOne (server : Server) (st : St) (entityName : String)
    (entityId : Value) : Except String Value × St :=
  match st.configCache with
  | .error e => (.error e, st)
  | .ok config =>
    let client1 : ClientState :=
      { st.client with
        baseUrl := some config.global.baseApiUrl
        requests := st.client.requests
          ++ [RestRequest.removeReq entityName entityId] }
    (server.removeResp entityName entityId, { st with client := client1 })

/-- Line 238: an omitted page argument defaults to 1. -/
def pageOrDefault : Option Nat → Nat
  | none => 1
  | some p => p

/-- Line 248, `config.global.per_page || 30`: the configured page size
when it is present and truthy (nonzero), and 30 otherwise. -/
def perPageOf (g : GlobalConfig) : Nat :=
  match g.per_page with
  | none => 30
  | some n => if n = 0 then 30 else n

/-- `getAll(entityName, page)` (lines 233-271): default the page to 1,
resolve the configuration, reject if the entity is unknown, compute the
page size, set the base URL and the full-response flag, fetch the page,
and resolve with name, config, raw items, current page, page size and the
`X-Count` header as `totalItems`. -/
def getAll (server : Server) (st : St) (entityName : String)
    (page : Option Nat) : Except String GetAllResult × St :=
  let pageNum := pageOrDefault page
  match st.configCache with
  | .error e => (.error e, st)
  | .ok config =>
    match List.lookup entityName config.entities with
    | none => (.error (entityNotFoundMsg entityName), st)
    | some entityConfig =>
      let perPage := perPageOf config.global
      let client1 : ClientState :=
        { baseUrl := some config.global.baseApiUrl
          fullResponse := true
          requests := st.client.requests
            ++ [RestRequest.getListReq entityName pageNum perPage] }
      match server.getListResp entityName pageNum perPage with
      | .error e => (.error e, { st with client := client1 })
      | .ok resp =>
        (.ok { entityName := entityName
               entityConfig := entityConfig
               rawItems := resp.data
               currentPage := pageNum
               perPage := perPage
               totalItems := resp.headers "X-Count" },
         { st with client := client1 })

/-! ## Concrete running example

The configuration, record and backend of the example in the
specification: one entity `book` labelled `Books`, with an
edition-tagged `title` field and an untagged `id` field; the fetched
record has id 5 and title Foo. -/

/-- The `title` field of the example: tagged `editable`, no value yet. -/
def exTitleField : FieldConfig :=
  { edition := some "editable", value := none, attrs := [] }

/-- The `id` field of the example: no `edition` tag. -/
def exIdField : FieldConfig :=
  { edition := none, value := none, attrs := [] }

/-- The `book` entity of the example. -/
def bookEntity : EntityConfig :=
  { label := "Books", fields := [("title", exTitleField), ("id", exIdField)] }

/-- The `global` settings of the example (no `per_page` configured). -/
def exGlobal : GlobalConfig :=
  { baseApiUrl := "http://example.com/api", per_page := none }

/-- The example configuration with the single `book` entity. -/
def bookConfig : Config :=
  { global := exGlobal, entities := [("book", bookEntity)] }

/-- The fetched record of the example. -/
def bookRecord : Record :=
  [("id", Value.vnum 5), ("title", Value.vstr "Foo")]

/-- Headers of the example list response: `X-Count` is 12. -/
def exHeaders : String → Option String :=
  fun h => if h = "X-Count" then some "12" else none

/-- A backend that answers every request successfully with the example
data. -/
def bookServer : Server :=
  { getOneResp := fun _ _ => .ok bookRecord
    getListResp := fun _ _ _ => .ok { data := [bookRecord], headers := exHeaders }
    postResp := fun _ _ => .ok (Value.vbool true)
    putResp := fun _ _ => .ok (Value.vbool true)
    removeResp := fun _ _ => .ok (Value.vbool true) }

/-- The pristine client singleton. -/
def initClient : ClientState :=
  { baseUrl := none, fullResponse := false, requests := [] }

/-- The example state: configuration loaded, pristine client. -/
def bookSt : St := { configCache := .ok bookConfig, client := initClient }

/-- A state whose configuration loading failed. -/
def errSt : St := { configCache := .error "config failed", client := initClient }

/-- In an association list whose keys are distinct, a key determines its
value. -/
theorem assoc_mem_eq_of_nodup {β : Type} {l : List (String × β)}
    (hnd : (l.map Prod.fst).Nodup) {k : String} {v w : β}
    (hv : (k, v) ∈ l) (hw : (k, w) ∈ l) : v = w := by
  induction l with
  | nil => exact absurd hv (List.not_mem_nil _)
  | cons p t ih =>
    rw [List.map_cons, List.nodup_cons] at hnd
    rcases List.mem_cons.mp hv with hv1 | hv2
    · subst hv1
      rcases List.mem_cons.mp hw with hw1 | hw2
      · injection hw1 with h1 h2
        exact h2.symm
      · exact absurd (List.mem_map.mpr ⟨(k, w), hw2, rfl⟩) hnd.1
    · rcases List.mem_cons.mp hw with hw1 | hw2
      · subst hw1
        exact absurd (List.mem_map.mpr ⟨(k, v), hv2, rfl⟩) hnd.1
      · exact ih hnd.2 hv2 hw2

/-! ## Claims -/

/-- The `title` field after hydration: the fetched value Foo was merged
into the metadata. -/
def exTitleFieldAfter : FieldConfig :=
  { edition := some "editable", value := some (Value.vstr "Foo"), attrs := [] }

/-- The `book` entity after `getOne` hydrated it: `title` carries its
value, `id` is untouched. -/
def bookEntityAfter : EntityConfig :=
  { label := "Books", fields := [("title", exTitleFieldAfter), ("id", exIdField)] }

/-- The example configuration as it stands after `getOne` ran once. -/
def bookConfigAfter : Config :=
  { global := exGlobal, entities := [("book", bookEntityAfter)] }

/-- C1: for every entity name present in the configuration, `getOne`
resolves to a record of fields, entityLabel, entityName and entityId in
which each fetched value is merged only into fields declaring an
`edition` tag, fields without the tag coming back unmodified with no
value injected; in particular, on the book example the resulting fields
are title with value Foo (still tagged editable) and id unchanged. -/
theorem C1_getOne_merges_only_edition_fields
    (server : Server) (st : St) (entityName : String) (entityId : Value)
    (config : Config) (ec : EntityConfig) (entity : Record)
    (hcfg : st.configCache = Except.ok config)
    (hec : List.lookup entityName config.entities = some ec)
    (hresp : server.getOneResp entityName entityId = Except.ok entity) :
    (∃ r : GetOneResult,
      (getOne server st entityName entityId).1 = Except.ok r ∧
      r.entityLabel = ec.label ∧ r.entityName = entityName ∧
      r.entityId = entityId ∧
      (∀ n f, (n, f) ∈ ec.fields → f.edition = none → (n, f) ∈ r.fields) ∧
      (∀ n f t v, (n, f) ∈ ec.fields → f.edition = some t →
        List.lookup n entity = some v →
        (n, { f with value := some v }) ∈ r.fields)) ∧
    (getOne bookServer bookSt "book" (Value.vnum 5)).1 =
      Except.ok { fields := [("title", exTitleFieldAfter), ("id", exIdField)],
                  entityLabel := "Books", entityName := "book",
                  entityId := Value.vnum 5 } := by
  constructor
  · refine ⟨{ fields := hydrateFields ec.fields entity, entityLabel := ec.label,
              entityName := entityName, entityId := entityId }, ?_, rfl, rfl, rfl, ?_, ?_⟩
    · simp only [getOne, hcfg, hec, hresp]
    · intro n f hmem hed
      refine List.mem_map.mpr ⟨(n, f), hmem, ?_⟩
      simp [hydrateField, hed]
    · intro n f t v hmem hed hval
      refine List.mem_map.mpr ⟨(n, f), hmem, ?_⟩
      simp [hydrateField, hed, hval]
  · rfl

/-- Witness for C1 at the book example. -/
theorem C1_witness :
    (∃ r : GetOneResult,
      (getOne bookServer bookSt "book" (Value.vnum 5)).1 = Except.ok r ∧
      r.entityLabel = bookEntity.label ∧ r.entityName = "book" ∧
      r.entityId = Value.vnum 5 ∧
      (∀ n f, (n, f) ∈ bookEntity.fields → f.edition = none → (n, f) ∈ r.fields) ∧
      (∀ n f t v, (n, f) ∈ bookEntity.fields → f.edition = some t →
        List.lookup n bookRecord = some v →
        (n, { f with value := some v }) ∈ r.fields)) ∧
    (getOne bookServer bookSt "book" (Value.vnum 5)).1 =
      Except.ok { fields := [("title", exTitleFieldAfter), ("id", exIdField)],
                  entityLabel := "Books", entityName := "book",
                  entityId := Value.vnum 5 } :=
  C1_getOne_merges_only_edition_fields bookServer bookSt "book" (Value.vnum 5)
    bookConfig bookEntity bookRecord rfl rfl rfl

/-- C2: for every entity name outside the configuration, `getOne`,
`getEditionFields`, `createOne`, `updateOne` and `getAll` reject with the
entity-not-found message, while `deleteOne` skips the check and issues
the deletion request anyway, its outcome being the server response. -/
theorem C2_missing_entity_rejections
    (server : Server) (st : St) (entityName : String) (entityId : Value)
    (entity : Record) (filterType : Option FilterType) (page : Option Nat)
    (config : Config)
    (hcfg : st.configCache = Except.ok config)
    (habs : List.lookup entityName config.entities = none) :
    (getOne server st entityName entityId).1
      = Except.error (entityNotFoundMsg entityName) ∧
    (getEditionFields st entityName filterType).1
      = Except.error (entityNotFoundMsg entityName) ∧
    (createOne server st entityName entity).1
      = Except.error (entityNotFoundMsg entityName) ∧
    (updateOne server st entityName entity).1
      = Except.error (entityNotFoundMsg entityName) ∧
    (getAll server st entityName page).1
      = Except.error (entityNotFoundMsg entityName) ∧
    (deleteOne server st entityName entityId).1
      = server.removeResp entityName entityId ∧
    (deleteOne server st entityName entityId).2.client.requests
      = st.client.requests ++ [RestRequest.removeReq entityName entityId] := by
  refine ⟨?_, ?_, ?_, ?_, ?_, ?_, ?_⟩
  · simp only [getOne, hcfg, habs]
  · simp only [getEditionFields, hcfg, habs]
  · simp only [createOne, hcfg, habs]
  · simp only [updateOne, hcfg, habs]
  · simp only [getAll, hcfg, habs]
  · simp only [deleteOne, hcfg]
  · simp only [deleteOne, hcfg]

/-- Witness for C2 at the unknown entity name ghost. -/
theorem C2_witness :
    (getOne bookServer bookSt "ghost" (Value.vnum 1)).1
      = Except.error (entityNotFoundMsg "ghost") ∧
    (getEditionFields bookSt "ghost" none).1
      = Except.error (entityNotFoundMsg "ghost") ∧
    (createOne bookServer bookSt "ghost" []).1
      = Except.error (entityNotFoundMsg "ghost") ∧
    (updateOne bookServer bookSt "ghost" []).1
      = Except.error (entityNotFoundMsg "ghost") ∧
    (getAll bookServer bookSt "ghost" none).1
      = Except.error (entityNotFoundMsg "ghost") ∧
    (deleteOne bookServer bookSt "ghost" (Value.vnum 1)).1
      = bookServer.removeResp "ghost" (Value.vnum 1) ∧
    (deleteOne bookServer bookSt "ghost" (Value.vnum 1)).2.client.requests
      = bookSt.client.requests ++ [RestRequest.removeReq "ghost" (Value.vnum 1)] :=
  C2_missing_entity_rejections bookServer bookSt "ghost" (Value.vnum 1)
    [] none none bookConfig rfl rfl

/-- C3 counterexample: the claim says every operation rejects for an
entity name outside the configuration, but `deleteOne` performs no lookup:
at the unknown name ghost it resolves with the server response. -/
theorem C3_counterexample :
    List.lookup "ghost" bookConfig.entities = none ∧
    (deleteOne bookServer bookSt "ghost" (Value.vnum 1)).1
      = Except.ok (Value.vbool true) :=
  ⟨rfl, rfl⟩

/-- C3 amended: for every entity name outside the configuration, every
operation that performs the lookup (`getOne`, `getEditionFields`,
`createOne`, `updateOne`, `getAll`) rejects; `deleteOne` is the
exception. -/
theorem C3_amended_lookup_ops_reject
    (server : Server) (st : St) (entityName : String) (entityId : Value)
    (entity : Record) (filterType : Option FilterType) (page : Option Nat)
    (config : Config)
    (hcfg : st.configCache = Except.ok config)
    (habs : List.lookup entityName config.entities = none) :
    (∃ e, (getOne server st entityName entityId).1 = Except.error e) ∧
    (∃ e, (getEditionFields st entityName filterType).1 = Except.error e) ∧
    (∃ e, (createOne server st entityName entity).1 = Except.error e) ∧
    (∃ e, (updateOne server st entityName entity).1 = Except.error e) ∧
    (∃ e, (getAll server st entityName page).1 = Except.error e) := by
  refine ⟨⟨entityNotFoundMsg entityName, ?_⟩, ⟨entityNotFoundMsg entityName, ?_⟩,
          ⟨entityNotFoundMsg entityName, ?_⟩, ⟨entityNotFoundMsg entityName, ?_⟩,
          ⟨entityNotFoundMsg entityName, ?_⟩⟩
  · simp only [getOne, hcfg, habs]
  · simp only [getEditionFields, hcfg, habs]
  · simp only [createOne, hcfg, habs]
  · simp only [updateOne, hcfg, habs]
  · simp only [getAll, hcfg, habs]

/-- Witness for the amended C3 at the unknown entity name ghost. -/
theorem C3_witness :
    (∃ e, (getOne bookServer bookSt "ghost" (Value.vnum 1)).1 = Except.error e) ∧
    (∃ e, (getEditionFields bookSt "ghost" none).1 = Except.error e) ∧
    (∃ e, (createOne bookServer bookSt "ghost" []).1 = Except.error e) ∧
    (∃ e, (updateOne bookServer bookSt "ghost" []).1 = Except.error e) ∧
    (∃ e, (getAll bookServer bookSt "ghost" none).1 = Except.error e) :=
  C3_amended_lookup_ops_reject bookServer bookSt "ghost" (Value.vnum 1)
    [] none none bookConfig rfl rfl

/-- C4: with no filter argument, `getEditionFields` resolves with exactly
the fields whose `edition` tag is defined, every untagged field excluded;
the characterisation is by membership, so the order of the mapping is
irrelevant. -/
theorem C4_getEditionFields_no_filter
    (st : St) (entityName : String) (config : Config) (ec : EntityConfig)
    (hcfg : st.configCache = Except.ok config)
    (hec : List.lookup entityName config.entities = some ec) :
    ∃ r : EditionFieldsResult,
      (getEditionFields st entityName none).1 = Except.ok r ∧
      r.entityLabel = ec.label ∧ r.entityName = entityName ∧
      ∀ n f, (n, f) ∈ r.fields ↔ ((n, f) ∈ ec.fields ∧ f.edition ≠ none) := by
  refine ⟨{ fields := filterEditionFields ec.fields [], entityLabel := ec.label,
            entityName := entityName }, ?_, rfl, rfl, ?_⟩
  · simp only [getEditionFields, resolveFilters, hcfg, hec]
  · intro n f
    simp only [filterEditionFields, List.mem_filter]
    cases hfe : f.edition <;> simp [hfe]

/-- Witness for C4 at the book example: title is kept, id is dropped. -/
theorem C4_witness :
    ∃ r : EditionFieldsResult,
      (getEditionFields bookSt "book" none).1 = Except.ok r ∧
      r.entityLabel = bookEntity.label ∧ r.entityName = "book" ∧
      ∀ n f, (n, f) ∈ r.fields ↔ ((n, f) ∈ bookEntity.fields ∧ f.edition ≠ none) :=
  C4_getEditionFields_no_filter bookSt "book" bookConfig bookEntity rfl rfl

/-- C8: calling `getEditionFields` with the empty array as filter is the
same operation as calling it with no filter at all, on every state and
entity name: the empty-list filter is an identity and keeps all
edition-tagged fields. -/
theorem C8_empty_filter_list_is_no_filter (st : St) (entityName : String) :
    getEditionFields st entityName (some (FilterType.many []))
      = getEditionFields st entityName none := rfl

/-- C5: with a single tag string, `getEditionFields` resolves with only
the fields whose `edition` tag equals that string; with a (nonempty) list
of tags it resolves with the union of the fields tagged with any tag in
the list. -/
theorem C5_getEditionFields_tag_filters
    (st : St) (entityName : String) (config : Config) (ec : EntityConfig)
    (t : String) (ts : List String)
    (hcfg : st.configCache = Except.ok config)
    (hec : List.lookup entityName config.entities = some ec)
    (hts : ts ≠ []) :
    (∃ r : EditionFieldsResult,
      (getEditionFields st entityName (some (FilterType.single t))).1
        = Except.ok r ∧
      ∀ n f, (n, f) ∈ r.fields ↔ ((n, f) ∈ ec.fields ∧ f.edition = some t)) ∧
    (∃ r : EditionFieldsResult,
      (getEditionFields st entityName (some (FilterType.many ts))).1
        = Except.ok r ∧
      ∀ n f, (n, f) ∈ r.fields ↔
        ((n, f) ∈ ec.fields ∧ ∃ u ∈ ts, f.edition = some u)) := by
  have hlen : resolveFilters (some (FilterType.many ts)) = ts := by
    simp [resolveFilters, List.length_eq_zero, hts]
  constructor
  · refine ⟨{ fields := filterEditionFields ec.fields [t],
              entityLabel := ec.label, entityName := entityName }, ?_, ?_⟩
    · simp only [getEditionFields, resolveFilters, hcfg, hec]
    · intro n f
      simp only [filterEditionFields, List.mem_filter]
      cases hfe : f.edition <;> simp [hfe, eq_comm]
  · refine ⟨{ fields := filterEditionFields ec.fields ts,
              entityLabel := ec.label, entityName := entityName }, ?_, ?_⟩
    · simp only [getEditionFields, hcfg, hec, hlen]
    · intro n f
      simp only [filterEditionFields, List.mem_filter]
      cases hfe : f.edition with
      | none => simp [hfe]
      | some e =>
        simp [hfe, List.length_eq_zero, hts, List.contains, List.elem_iff, eq_comm]

/-- Witness for C5 at the book example, with the tag editable and the tag
list of the specification example. -/
theorem C5_witness :
    (["read-only", "editable"] : List String) ≠ [] ∧
    ((∃ r : EditionFieldsResult,
      (getEditionFields bookSt "book" (some (FilterType.single "editable"))).1
        = Except.ok r ∧
      ∀ n f, (n, f) ∈ r.fields ↔
        ((n, f) ∈ bookEntity.fields ∧ f.edition = some "editable")) ∧
    (∃ r : EditionFieldsResult,
      (getEditionFields bookSt "book"
        (some (FilterType.many ["read-only", "editable"]))).1 = Except.ok r ∧
      ∀ n f, (n, f) ∈ r.fields ↔
        ((n, f) ∈ bookEntity.fields ∧
          ∃ u ∈ ["read-only", "editable"], f.edition = some u))) :=
  ⟨by decide,
   C5_getEditionFields_tag_filters bookSt "book" bookConfig bookEntity
     "editable" ["read-only", "editable"] rfl rfl (by decide)⟩

/-- Global settings with `per_page` explicitly set to 0. -/
def zeroPerPageGlobal : GlobalConfig :=
  { baseApiUrl := "http://example.com/api", per_page := some 0 }

/-- A configuration whose global `per_page` is set to 0. -/
def zeroPerPageConfig : Config :=
  { global := zeroPerPageGlobal, entities := [("book", bookEntity)] }

/-- State holding the zero-per-page configuration. -/
def zeroPerPageSt : St :=
  { configCache := .ok zeroPerPageConfig, client := initClient }

/-- C6 counterexample: the claim says the page size equals the global
`per_page` when it is set, but `per_page || 30` coerces a configured 0 to
30: with `per_page` set to 0 the request goes out with page size 30, not
0. -/
theorem C6_counterexample :
    zeroPerPageConfig.global.per_page = some 0 ∧
    (getAll bookServer zeroPerPageSt "book" (some 2)).1 =
      Except.ok { entityName := "book", entityConfig := bookEntity,
                  rawItems := [bookRecord], currentPage := 2, perPage := 30,
                  totalItems := some "12" } ∧
    (getAll bookServer zeroPerPageSt "book" (some 2)).2.client.requests =
      [RestRequest.getListReq "book" 2 30] :=
  ⟨rfl, rfl, rfl⟩

/-- C6 amended: `getAll` requests the given page (1 when omitted) with
page size `per_page` when that is set and nonzero and 30 otherwise (a
configured 0 is falsy and falls back to 30), and resolves with the record
whose `totalItems` is the `X-Count` response header value. -/
theorem C6_getAll_pagination
    (server : Server) (st : St) (entityName : String) (page : Option Nat)
    (config : Config) (ec : EntityConfig) (resp : ListResponse)
    (hcfg : st.configCache = Except.ok config)
    (hec : List.lookup entityName config.entities = some ec)
    (hresp : server.getListResp entityName (pageOrDefault page)
      (perPageOf config.global) = Except.ok resp) :
    (getAll server st entityName page).1 =
      Except.ok { entityName := entityName, entityConfig := ec,
                  rawItems := resp.data, currentPage := pageOrDefault page,
                  perPage := perPageOf config.global,
                  totalItems := resp.headers "X-Count" } ∧
    (getAll server st entityName page).2.client.requests =
      st.client.requests ++ [RestRequest.getListReq entityName
        (pageOrDefault page) (perPageOf config.global)] ∧
    pageOrDefault none = 1 ∧
    (∀ p, pageOrDefault (some p) = p) ∧
    (∀ n, config.global.per_page = some n → n ≠ 0 →
      perPageOf config.global = n) ∧
    (config.global.per_page = none → perPageOf config.global = 30) ∧
    (config.global.per_page = some 0 → perPageOf config.global = 30) := by
  refine ⟨?_, ?_, rfl, fun p => rfl, ?_, ?_, ?_⟩
  · simp only [getAll, hcfg, hec, hresp]
  · simp only [getAll, hcfg, hec, hresp]
  · intro n hn hnz
    simp [perPageOf, hn, hnz]
  · intro hn
    simp [perPageOf, hn]
  · intro hn
    simp [perPageOf, hn]

/-- Witness for the amended C6 at the book example, page 2, default page
size 30. -/
theorem C6_witness :
    (getAll bookServer bookSt "book" (some 2)).1 =
      Except.ok { entityName := "book", entityConfig := bookEntity,
                  rawItems := [bookRecord],
                  currentPage := pageOrDefault (some 2),
                  perPage := perPageOf bookConfig.global,
                  totalItems := exHeaders "X-Count" } ∧
    (getAll bookServer bookSt "book" (some 2)).2.client.requests =
      bookSt.client.requests ++ [RestRequest.getListReq "book"
        (pageOrDefault (some 2)) (perPageOf bookConfig.global)] ∧
    pageOrDefault none = 1 ∧
    (∀ p, pageOrDefault (some p) = p) ∧
    (∀ n, bookConfig.global.per_page = some n → n ≠ 0 →
      perPageOf bookConfig.global = n) ∧
    (bookConfig.global.per_page = none → perPageOf bookConfig.global = 30) ∧
    (bookConfig.global.per_page = some 0 → perPageOf bookConfig.global = 30) :=
  C6_getAll_pagination bookServer bookSt "book" (some 2) bookConfig bookEntity
    { data := [bookRecord], headers := exHeaders } rfl rfl rfl

/-- C7 counterexample: the configuration is not read-only at runtime.
After a single `getOne` call the cached configuration differs from the
loaded one: the fetched value Foo now sits inside the title `FieldConfig`
of the configuration itself, persisting across calls. -/
theorem C7_counterexample :
    bookSt.configCache = Except.ok bookConfig ∧
    (getOne bookServer bookSt "book" (Value.vnum 5)).2.configCache =
      Except.ok bookConfigAfter ∧
    bookConfigAfter ≠ bookConfig ∧
    exTitleFieldAfter ≠ exTitleField :=
  ⟨rfl, rfl, by decide, by decide⟩

/-- `getEditionFields` never changes the configuration cache. -/
theorem getEditionFields_preserves_config (st : St) (en : String)
    (ft : Option FilterType) :
    (getEditionFields st en ft).2.configCache = st.configCache := by
  cases hcc : st.configCache with
  | error e => simp [getEditionFields, hcc]
  | ok c =>
    cases h : List.lookup en c.entities with
    | none => simp [getEditionFields, hcc, h]
    | some ec => simp [getEditionFields, hcc, h]

/-- `createOne` never changes the configuration cache. -/
theorem createOne_preserves_config (sv : Server) (st : St) (en : String)
    (e2 : Record) :
    (createOne sv st en e2).2.configCache = st.configCache := by
  cases hcc : st.configCache with
  | error e => simp [createOne, hcc]
  | ok c =>
    cases h : List.lookup en c.entities with
    | none => simp [createOne, hcc, h]
    | some ec => simp [createOne, hcc, h]

/-- `updateOne` never changes the configuration cache. -/
theorem updateOne_preserves_config (sv : Server) (st : St) (en : String)
    (e2 : Record) :
    (updateOne sv st en e2).2.configCache = st.configCache := by
  cases hcc : st.configCache with
  | error e => simp [updateOne, hcc]
  | ok c =>
    cases h : List.lookup en c.entities with
    | none => simp [updateOne, hcc, h]
    | some ec => simp [updateOne, hcc, h]

/-- `deleteOne` never changes the configuration cache. -/
theorem deleteOne_preserves_config (sv : Server) (st : St) (en : String)
    (i2 : Value) :
    (deleteOne sv st en i2).2.configCache = st.configCache := by
  cases hcc : st.configCache with
  | error e => simp [deleteOne, hcc]
  | ok c => simp [deleteOne, hcc]

/-- `getAll` never changes the configuration cache. -/
theorem getAll_preserves_config (sv : Server) (st : St) (en : String)
    (p2 : Option Nat) :
    (getAll sv st en p2).2.configCache = st.configCache := by
  cases hcc : st.configCache with
  | error e => simp [getAll, hcc]
  | ok c =>
    cases h : List.lookup en c.entities with
    | none => simp [getAll, hcc, h]
    | some ec =>
      cases h2 : sv.getListResp en (pageOrDefault p2) (perPageOf c.global) with
      | error e => simp [getAll, hcc, h, h2]
      | ok resp => simp [getAll, hcc, h, h2]

/-- Replacing the binding of a key that is present: looking the key up
afterwards yields the new value. -/
theorem lookup_setEntity (l : List (String × EntityConfig)) (name : String)
    (ec2 : EntityConfig) (h : (List.lookup name l).isSome) :
    List.lookup name (setEntity l name ec2) = some ec2 := by
  induction l with
  | nil => simp [List.lookup] at h
  | cons p t ih =>
    obtain ⟨k, v⟩ := p
    simp only [setEntity, List.map_cons] at ih ⊢
    by_cases hk : k = name
    · subst hk
      rw [if_pos (show (k, v).1 = k from rfl)]
      simp [List.lookup]
    · have hne : (name == k) = false := by
        rw [beq_eq_false_iff_ne]
        exact fun hh => hk hh.symm
      rw [if_neg hk]
      simp only [List.lookup, hne] at h ⊢
      exact ih h

/-- The entity configuration as `getOne` leaves it: its fields have been
hydrated in place from the fetched record. -/
def hydratedEntity (ec : EntityConfig) (entity : Record) : EntityConfig :=
  { ec with fields := hydrateFields ec.fields entity }

/-- The whole configuration as `getOne` leaves it: the fetched entity has
been replaced by its hydrated version. -/
def hydratedConfig (config : Config) (entityName : String)
    (ec : EntityConfig) (entity : Record) : Config :=
  { config with
    entities := setEntity config.entities entityName
      (hydratedEntity ec entity) }

/-- C7 amended: the configuration is mutable at runtime: `getOne` assigns
each fetched value into the `FieldConfig` objects of the configuration in
place, so the hydrated `value` persists in the shared cached configuration
after the call; the five other operations leave the configuration
untouched. -/
theorem C7_amended_getOne_mutates_config
    (server : Server) (st : St) (entityName : String) (entityId : Value)
    (config : Config) (ec : EntityConfig) (entity : Record)
    (hcfg : st.configCache = Except.ok config)
    (hec : List.lookup entityName config.entities = some ec)
    (hresp : server.getOneResp entityName entityId = Except.ok entity) :
    (getOne server st entityName entityId).2.configCache =
      Except.ok (hydratedConfig config entityName ec entity) ∧
    (∀ n f t v, (n, f) ∈ ec.fields → f.edition = some t →
      List.lookup n entity = some v →
      ∃ ec2, List.lookup entityName
          (hydratedConfig config entityName ec entity).entities = some ec2 ∧
        (n, { f with value := some v }) ∈ ec2.fields) ∧
    (∀ st2 en ft, (getEditionFields st2 en ft).2.configCache
      = st2.configCache) ∧
    (∀ sv st2 en e2, (createOne sv st2 en e2).2.configCache
      = st2.configCache) ∧
    (∀ sv st2 en e2, (updateOne sv st2 en e2).2.configCache
      = st2.configCache) ∧
    (∀ sv st2 en i2, (deleteOne sv st2 en i2).2.configCache
      = st2.configCache) ∧
    (∀ sv st2 en p2, (getAll sv st2 en p2).2.configCache
      = st2.configCache) := by
  refine ⟨?_, ?_, getEditionFields_preserves_config,
    createOne_preserves_config, updateOne_preserves_config,
    deleteOne_preserves_config, getAll_preserves_config⟩
  · simp only [getOne, hcfg, hec, hresp, hydratedConfig, hydratedEntity]
  · intro n f t v hmem hed hval
    refine ⟨hydratedEntity ec entity,
      lookup_setEntity config.entities entityName _ (by rw [hec]; rfl), ?_⟩
    exact List.mem_map.mpr ⟨(n, f), hmem, by simp [hydrateField, hed, hval]⟩

/-- Witness for the amended C7 at the book example. -/
theorem C7_witness :
    (getOne bookServer bookSt "book" (Value.vnum 5)).2.configCache =
      Except.ok (hydratedConfig bookConfig "book" bookEntity bookRecord) ∧
    (∀ n f t v, (n, f) ∈ bookEntity.fields → f.edition = some t →
      List.lookup n bookRecord = some v →
      ∃ ec2, List.lookup "book"
          (hydratedConfig bookConfig "book" bookEntity bookRecord).entities
            = some ec2 ∧
        (n, { f with value := some v }) ∈ ec2.fields) ∧
    (∀ st2 en ft, (getEditionFields st2 en ft).2.configCache
      = st2.configCache) ∧
    (∀ sv st2 en e2, (createOne sv st2 en e2).2.configCache
      = st2.configCache) ∧
    (∀ sv st2 en e2, (updateOne sv st2 en e2).2.configCache
      = st2.configCache) ∧
    (∀ sv st2 en i2, (deleteOne sv st2 en i2).2.configCache
      = st2.configCache) ∧
    (∀ sv st2 en p2, (getAll sv st2 en p2).2.configCache
      = st2.configCache) :=
  C7_amended_getOne_mutates_config bookServer bookSt "book" (Value.vnum 5)
    bookConfig bookEntity bookRecord rfl rfl rfl

/-- C9: `getOne` injects a value into an edition-tagged field only when
the fetched record defines a property under the field name: a field whose
name the record does not define comes back unchanged (no value slot
added), and any change to a field is exactly the assignment of a value the
record defines, on an edition-tagged field. -/
theorem C9_value_needs_record_property
    (server : Server) (st : St) (entityName : String) (entityId : Value)
    (config : Config) (ec : EntityConfig) (entity : Record)
    (hcfg : st.configCache = Except.ok config)
    (hec : List.lookup entityName config.entities = some ec)
    (hresp : server.getOneResp entityName entityId = Except.ok entity)
    (hnd : (ec.fields.map Prod.fst).Nodup) :
    ∃ r : GetOneResult,
      (getOne server st entityName entityId).1 = Except.ok r ∧
      (∀ n f, (n, f) ∈ ec.fields → List.lookup n entity = none →
        (n, f) ∈ r.fields) ∧
      (∀ n f f2, (n, f) ∈ ec.fields → (n, f2) ∈ r.fields →
        f2 = f ∨ ∃ v, List.lookup n entity = some v ∧ f.edition ≠ none ∧
          f2 = { f with value := some v }) := by
  refine ⟨{ fields := hydrateFields ec.fields entity, entityLabel := ec.label,
            entityName := entityName, entityId := entityId }, ?_, ?_, ?_⟩
  · simp only [getOne, hcfg, hec, hresp]
  · intro n f hmem hlk
    refine List.mem_map.mpr ⟨(n, f), hmem, ?_⟩
    cases hfe : f.edition <;> simp [hydrateField, hfe, hlk]
  · intro n f f2 hmem hmem2
    obtain ⟨q, hq, heq⟩ := List.mem_map.mp hmem2
    have h1 : q.1 = n := congrArg Prod.fst heq
    have h2 : hydrateField entity q.1 q.2 = f2 := congrArg Prod.snd heq
    have hq2 : (q.1, q.2) ∈ ec.fields := hq
    rw [h1] at hq2 h2
    have hgf : q.2 = f := assoc_mem_eq_of_nodup hnd hq2 hmem
    rw [hgf] at h2
    cases hfe : f.edition with
    | none =>
      left
      rw [← h2]
      simp [hydrateField, hfe]
    | some t =>
      cases hlk : List.lookup n entity with
      | none =>
        left
        rw [← h2]
        simp [hydrateField, hfe, hlk]
      | some v =>
        right
        refine ⟨v, rfl, by simp [hfe], ?_⟩
        rw [← h2]
        simp [hydrateField, hfe, hlk]

/-- Witness for C9 at the book example. -/
theorem C9_witness :
    ∃ r : GetOneResult,
      (getOne bookServer bookSt "book" (Value.vnum 5)).1 = Except.ok r ∧
      (∀ n f, (n, f) ∈ bookEntity.fields → List.lookup n bookRecord = none →
        (n, f) ∈ r.fields) ∧
      (∀ n f f2, (n, f) ∈ bookEntity.fields → (n, f2) ∈ r.fields →
        f2 = f ∨ ∃ v, List.lookup n bookRecord = some v ∧ f.edition ≠ none ∧
          f2 = { f with value := some v }) :=
  C9_value_needs_record_property bookServer bookSt "book" (Value.vnum 5)
    bookConfig bookEntity bookRecord rfl rfl rfl (by decide)

/-- C10: `deleteOne` resolves the configuration first: when loading fails
it rejects with that failure and the state is untouched (no deletion
request issued); when loading succeeds it sets the base URL from the
configuration and issues the deletion request, resolving with the server
response. -/
theorem C10_deleteOne_resolves_config_first
    (server : Server) (st : St) (entityName : String) (entityId : Value) :
    (∀ e, st.configCache = Except.error e →
      deleteOne server st entityName entityId = (Except.error e, st)) ∧
    (∀ config, st.configCache = Except.ok config →
      (deleteOne server st entityName entityId).2.client.baseUrl
        = some config.global.baseApiUrl ∧
      (deleteOne server st entityName entityId).2.client.requests
        = st.client.requests ++ [RestRequest.removeReq entityName entityId] ∧
      (deleteOne server st entityName entityId).1
        = server.removeResp entityName entityId) := by
  constructor
  · intro e he
    simp only [deleteOne, he]
  · intro config hc
    refine ⟨?_, ?_, ?_⟩ <;> simp only [deleteOne, hc]

/-- Witness for C10: a failed configuration load makes `deleteOne` reject
untouched, and a successful one sets the base URL before deleting. -/
theorem C10_witness :
    deleteOne bookServer errSt "book" (Value.vnum 1)
      = (Except.error "config failed", errSt) ∧
    (deleteOne bookServer bookSt "book" (Value.vnum 1)).2.client.baseUrl
      = some "http://example.com/api" :=
  ⟨(C10_deleteOne_resolves_config_first bookServer errSt "book"
      (Value.vnum 1)).1 "config failed" rfl,
   ((C10_deleteOne_resolves_config_first bookServer bookSt "book"
      (Value.vnum 1)).2 bookConfig rfl).1⟩
